import Mathlib

/-!
Verification of the funnel-builder consistency engine.

This file gives a shallow embedding of the funnel-graph core of the
repository: the path reindexer (`reindexPages`), the route migrator
(`reindexEventRouting` with `buildEventOwnerMap` and its path map), the
bounded mutation history (`setConfig` / `undo` / `redo`), the validator
(`validateConfig`), the import routine (`loadConfig`), the delete-page
guard (`deletePage`) and the recursive template renderer
(`RecursiveRenderer`).  JavaScript objects are embedded as
insertion-ordered association lists (`objGet` / `objSet` mirror property
read and write), JavaScript `parseInt` is embedded as `parseIntJS`
(decimal radix, leading whitespace and sign, `none` playing the role of
`NaN`), and truthiness tests on strings are the tests against `""`.
-/

/-- A JavaScript value as it occurs in `template_data` dictionaries and
component props: only the shapes the engine inspects are distinguished. -/
inductive JVal where
  | str (s : String)
  | num (n : Int)
  | bool (b : Bool)
  | null
  deriving DecidableEq, Repr

/-- JavaScript truthiness for the values of `JVal`. -/
def JVal.truthy : JVal → Bool
  | .str s => s ≠ ""
  | .num n => n ≠ 0
  | .bool b => b
  | .null => false

/-- Property read on an object embedded as an association list:
the first binding of the key (unique, since `objSet` never duplicates). -/
def objGet {α : Type} (m : List (String × α)) (k : String) : Option α :=
  (m.find? (fun p => p.1 = k)).map (fun p => p.2)

/-- Property write on an object embedded as an association list: an
existing key is updated in place, a new key is appended, mirroring the
insertion-order semantics of JavaScript object assignment. -/
def objSet {α : Type} (m : List (String × α)) (k : String) (v : α) : List (String × α) :=
  if m.any (fun p => p.1 = k) then
    m.map (fun p => if p.1 = k then (k, v) else p)
  else
    m ++ [(k, v)]

/-- Decimal digit run of a character list, as a number; `none` when the
run is empty (JavaScript `NaN`). -/
def digitsVal (cs : List Char) : Option Nat :=
  let ds := cs.takeWhile Char.isDigit
  if ds = [] then none
  else some (ds.foldl (fun a c => a * 10 + (c.toNat - 48)) 0)

/-- JavaScript `parseInt` at radix 10 on the strings the engine feeds it:
leading whitespace is skipped, an optional sign is read, then the longest
decimal digit run; `none` stands for `NaN`. -/
def parseIntJS (s : String) : Option Int :=
  let cs := s.data.dropWhile Char.isWhitespace
  match cs with
  | '-' :: rest => (digitsVal rest).map (fun n => -(n : Int))
  | '+' :: rest => (digitsVal rest).map (fun n => (n : Int))
  | _ => (digitsVal cs).map (fun n => (n : Int))

/-- `meta` block of a page (title/description/keywords). -/
structure PageMeta where
  title : String
  description : String
  keywords : Option String
  deriving DecidableEq, Repr

/-- A tracking event attached to a page. -/
structure TrackingEvent where
  kind : String
  name : String
  params : List (String × JVal)
  deriving DecidableEq, Repr

/-- `PageConfig` of `types.ts`: one funnel step. -/
structure PageConfig where
  name : String
  path : String
  template : String
  template_data : List (String × JVal)
  meta : Option PageMeta
  tracking_events : List TrackingEvent
  header : Option Bool
  footer : Option Bool
  deriving DecidableEq, Repr

/-- A conditional branch of a routing entry. -/
structure Condition where
  field : String
  op : String
  value : JVal
  target : String
  deriving DecidableEq, Repr

/-- The `route` block of a routing entry.  The source names the first
field `to`, a Lean keyword, so it is spelled `toPath` here; an empty
`toPath` embeds an absent or falsy `route.to` of the untyped source. -/
structure Route where
  toPath : String
  conditions : Option (List Condition)
  deriving DecidableEq, Repr

/-- One entry of the `event_routing` table. -/
structure EventEntry where
  route : Option Route
  answer_key : Option String
  deriving DecidableEq, Repr

mutual
/-- `ComponentNode` of `types.ts`: the declarative UI tree (`type` and
`component` are both optional kind names; `children` is nested nodes, a
data-key string, or absent). -/
inductive ComponentNode : Type where
  | mk (typeName : Option String) (component : Option String)
       (props : List (String × JVal)) (children : NodeChildren)
  deriving DecidableEq

/-- The `children` field of a `ComponentNode`. -/
inductive NodeChildren : Type where
  | absent
  | ref (key : String)
  | nodes (l : NodeList)
  deriving DecidableEq

/-- A list of component nodes (spelled out so that mutual structural
recursion over the tree stays primitive). -/
inductive NodeList : Type where
  | nil
  | cons (hd : ComponentNode) (tl : NodeList)
  deriving DecidableEq
end

/-- Theme block of the funnel document (each sub-section a string map). -/
structure ThemeConfig where
  colors : List (String × String)
  fonts : List (String × String)
  spacing : List (String × String)
  border_radius : List (String × String)
  width : List (String × String)
  border : List (String × String)
  deriving DecidableEq, Repr

/-- One slot (header or footer) of the layout block. -/
structure LayoutSlot where
  template : String
  template_data : List (String × JVal)
  deriving DecidableEq, Repr

/-- The layout block: header and footer slots. -/
structure LayoutConfig where
  header : LayoutSlot
  footer : LayoutSlot
  deriving DecidableEq, Repr

/-- The funnel document (`FunnelConfig` of `types.ts`), restricted to the
sections the consistency engine reads and writes. -/
structure FunnelConfig where
  pages : List (String × PageConfig)
  templates : List (String × ComponentNode)
  event_routing : List (String × EventEntry)
  theme : ThemeConfig
  layout : LayoutConfig
  deriving DecidableEq

/-- Worker of `reindexPages`: assign `path = index + 1` (as a string)
walking the collection in order, starting at index `i`. -/
def reindexAux : Nat → List (String × PageConfig) → List (String × PageConfig)
  | _, [] => []
  | i, (k, p) :: rest => (k, { p with path := toString (i + 1) }) :: reindexAux (i + 1) rest

/-- `reindexPages` of the funnel provider: rebuild the page collection in
iteration order with `path = (index + 1).toString()` and all other fields
of each page kept. -/
def reindexPages (pages : List (String × PageConfig)) : List (String × PageConfig) :=
  reindexAux 0 pages

/-- Inner loop of `buildEventOwnerMap`: scan the values of one page's
`template_data` and record `ownerMap[value] = pageKey` for every string
value that is a routing-entry name (later writes overwrite earlier ones). -/
def scanPageValues (eventNames : List String) (pageKey : String) :
    List JVal → List (String × String) → List (String × String)
  | [], acc => acc
  | v :: t, acc =>
    scanPageValues eventNames pageKey t
      (match v with
       | .str s => if eventNames.contains s then objSet acc s pageKey else acc
       | _ => acc)

/-- Outer loop of `buildEventOwnerMap`: one `scanPageValues` pass per
page, in collection order. -/
def buildEventOwnerMapAux (eventNames : List String) :
    List (String × PageConfig) → List (String × String) → List (String × String)
  | [], acc => acc
  | kp :: t, acc =>
    buildEventOwnerMapAux eventNames t
      (scanPageValues eventNames kp.1 (kp.2.template_data.map (fun kv => kv.2)) acc)

/-- `buildEventOwnerMap` of the funnel provider: map each event name to
the key of the page whose `template_data` references it, pages scanned in
collection order with later pages overwriting earlier ones. -/
def buildEventOwnerMap (pages : List (String × PageConfig))
    (routing : List (String × EventEntry)) : List (String × String) :=
  buildEventOwnerMapAux (routing.map (fun p => p.1)) pages []

/-- The `pathMap` built at the top of `reindexEventRouting`: for every
page key present in both collections whose path changed, map the old path
to the new path. -/
def buildPathMap (oldPages newPages : List (String × PageConfig)) : List (String × String) :=
  oldPages.foldl (fun acc kp =>
    match objGet newPages kp.1 with
    | some newPage =>
        if kp.2.path ≠ newPage.path then objSet acc kp.2.path newPage.path else acc
    | none => acc) []

/-- The sequential-route test of `reindexEventRouting`:
`ownerOldPath != null && parseInt(oldRouteTo) === parseInt(ownerOldPath) + 1`
(`none` plays `NaN`, and any comparison against `NaN` is false). -/
def wasSequentialTest (ownerOldPath : Option String) (oldRouteTo : String) : Bool :=
  match ownerOldPath with
  | some p =>
      match parseIntJS oldRouteTo, parseIntJS p with
      | some a, some b => a = b + 1
      | _, _ => false
  | none => false

/-- The sequential rewrite `(parseInt(ownerNewPath) + 1).toString()`;
a non-numeric owner path yields the string `"NaN"`. -/
def seqNewTo (ownerNewPath : String) : String :=
  match parseIntJS ownerNewPath with
  | some m => toString (m + 1)
  | none => "NaN"

/-- Migration of one conditional branch target inside
`reindexEventRouting`: `if (cond.target && pathMap[cond.target])
cond.target = pathMap[cond.target]` — identity preservation only. -/
def migrateCondition (pathMap : List (String × String)) (c : Condition) : Condition :=
  if c.target ≠ "" then
    match objGet pathMap c.target with
    | some t => if t ≠ "" then { c with target := t } else c
    | none => c
  else c

/-- The conditions array of an entry after migration: every branch
target through `migrateCondition`, an absent array kept absent. -/
def migrateConds (pathMap : List (String × String)) :
    Option (List Condition) → Option (List Condition)
  | some cs => some (cs.map (migrateCondition pathMap))
  | none => none

/-- The per-entry body of the `for eventName in newRouting` loop of
`reindexEventRouting`; returns the rewritten entry together with its
contribution to the sequential and custom rewrite counters.  An entry
whose `route.to` is falsy is skipped whole (`continue`), conditions
included. -/
def migrateEntry (oldPages newPages : List (String × PageConfig))
    (ownerMap pathMap : List (String × String))
    (name : String) (e : EventEntry) : EventEntry × Nat × Nat :=
  match e.route with
  | none => (e, 0, 0)
  | some r =>
    if r.toPath = "" then (e, 0, 0)
    else
      let ownerKey := objGet ownerMap name
      let ownerOldPath := ownerKey.bind (fun k => (objGet oldPages k).map (fun p => p.path))
      let ownerNewPath := ownerKey.bind (fun k => (objGet newPages k).map (fun p => p.path))
      let step : String × Nat × Nat :=
        if wasSequentialTest ownerOldPath r.toPath && ownerNewPath.isSome then
          (seqNewTo (ownerNewPath.getD ""), 1, 0)
        else
          match objGet pathMap r.toPath with
          | some t => if t ≠ "" then (t, 0, 1) else (r.toPath, 0, 0)
          | none => (r.toPath, 0, 0)
      ({ e with route := some ⟨step.1, migrateConds pathMap r.conditions⟩ },
       step.2.1, step.2.2)

/-- Return value of `reindexEventRouting`: the rewritten routing table
plus the sequential and custom rewrite counts. -/
structure MigrationResult where
  routing : List (String × EventEntry)
  sequentialCount : Nat
  customCount : Nat
  deriving DecidableEq

/-- `reindexEventRouting` of the funnel provider: rewrite every routing
entry after a reindex, classifying each `route.to` as sequential (owner's
old successor, rewritten to the owner's new successor) or custom
(rewritten through the path map), and rewriting conditional branch
targets through the path map. -/
def reindexEventRouting (oldPages newPages : List (String × PageConfig))
    (routing : List (String × EventEntry)) : MigrationResult :=
  let pathMap := buildPathMap oldPages newPages
  if pathMap = [] ∧ routing = [] then
    ⟨routing, 0, 0⟩
  else
    let ownerMap := buildEventOwnerMap oldPages routing
    ⟨routing.map (fun p => (p.1, (migrateEntry oldPages newPages ownerMap pathMap p.1 p.2).1)),
     (routing.map (fun p => (migrateEntry oldPages newPages ownerMap pathMap p.1 p.2).2.1)).sum,
     (routing.map (fun p => (migrateEntry oldPages newPages ownerMap pathMap p.1 p.2).2.2)).sum⟩

/-- Result of a guarded mutation: the (possibly unchanged) document and
the toast notification it raised, if any. -/
structure MutationResult where
  config : FunnelConfig
  notification : Option String
  deriving DecidableEq

/-- `addPage` of the funnel provider: insert the new page, reindex, and
migrate the routing table in the same update. -/
def addPage (cfg : FunnelConfig) (pageId : String) (newConfig : PageConfig) : FunnelConfig :=
  let updatedPages := objSet cfg.pages pageId newConfig
  let reindexed := reindexPages updatedPages
  let m := reindexEventRouting cfg.pages reindexed cfg.event_routing
  { cfg with pages := reindexed, event_routing := m.routing }

/-- `deletePage` of the funnel provider: silently refuse an unknown page
id, refuse the last remaining page with a warning toast, and otherwise
remove the page, reindex and migrate the routing table in one update. -/
def deletePage (cfg : FunnelConfig) (pageId : String) : MutationResult :=
  let pageKeys := cfg.pages.map (fun p => p.1)
  if pageId ∉ pageKeys then ⟨cfg, none⟩
  else if pageKeys.length ≤ 1 then ⟨cfg, some "Cannot delete the last page."⟩
  else
    let remaining := cfg.pages.filter (fun p => p.1 ≠ pageId)
    let reindexed := reindexPages remaining
    let m := reindexEventRouting cfg.pages reindexed cfg.event_routing
    ⟨{ cfg with pages := reindexed, event_routing := m.routing }, some "Page deleted."⟩

/-- `MAX_HISTORY` of the funnel provider. -/
def MAX_HISTORY : Nat := 50

/-- The provider's config-plus-history state: the current document and
the `past` / `future` stacks of the undo log. -/
structure HistState where
  config : FunnelConfig
  past : List FunnelConfig
  future : List FunnelConfig
  deriving DecidableEq

/-- The `setConfig` wrapper of the funnel provider: every top-level
mutation publishes the new document, pushes the previous one onto `past`
capped at the last `MAX_HISTORY` entries (`slice(-MAX_HISTORY)`), and
clears `future`. -/
def setConfig (s : HistState) (newConfig : FunnelConfig) : HistState :=
  let pushed := s.past ++ [s.config]
  { config := newConfig,
    past := pushed.drop (pushed.length - MAX_HISTORY),
    future := [] }

/-- `undo` of the funnel provider: a no-op on an empty `past`, otherwise
pop `past`, push the current document onto `future`, restore the popped
document. -/
def undo (s : HistState) : HistState :=
  match s.past.getLast? with
  | none => s
  | some prev => { config := prev, past := s.past.dropLast, future := s.config :: s.future }

/-- `redo` of the funnel provider: the mirror of `undo`. -/
def redo (s : HistState) : HistState :=
  match s.future with
  | [] => s
  | nxt :: rest => { config := nxt, past := s.past ++ [s.config], future := rest }

/-- A sequence of top-level mutations, each going through `setConfig`. -/
def applyMutations (s : HistState) (cs : List FunnelConfig) : HistState :=
  cs.foldl setConfig s

/-- Severity of a validation issue (`type` field of `ValidationError`). -/
inductive Severity where
  | error
  | warning
  deriving DecidableEq, Repr

/-- `ValidationError` of the funnel provider (the source calls the first
field `type`, a Lean keyword, spelled `kind` here). -/
structure ValidationError where
  kind : Severity
  field : String
  message : String
  pageId : Option String
  deriving DecidableEq, Repr

/-- Check 1 of `validateConfig`, per page: missing or non-numeric path. -/
def pagePathIssues (pageId : String) (page : PageConfig) : List ValidationError :=
  if page.path = "" then [⟨.error, "path", "Missing path", some pageId⟩]
  else
    match parseIntJS page.path with
    | none => [⟨.error, "path", "Non-numeric path: \"" ++ page.path ++ "\"", some pageId⟩]
    | some _ => []

/-- The numeric paths collected by check 1 (pages with a truthy path that
parses). -/
def collectedPaths (pages : List (String × PageConfig)) : List Int :=
  pages.filterMap (fun kp => if kp.2.path = "" then none else parseIntJS kp.2.path)

/-- Insertion of one element into an ascending list. -/
def insertSortedInt (x : Int) : List Int → List Int
  | [] => [x]
  | y :: ys => if x ≤ y then x :: y :: ys else y :: insertSortedInt x ys

/-- Ascending sort of the collected paths (`sort((a, b) => a - b)`). -/
def sortIntsAsc (l : List Int) : List Int := l.foldr insertSortedInt []

/-- `[1,2,3]`-style rendering used in the broken-sequence message. -/
def joinInts (l : List Int) : String := String.intercalate "," (l.map toString)

/-- Check 1 of `validateConfig`, global: the sorted collected paths must
be exactly `[1..N]`. -/
def pathSequenceIssues (pages : List (String × PageConfig)) : List ValidationError :=
  let paths := collectedPaths pages
  let sorted := sortIntsAsc paths
  let expected := (List.range paths.length).map (fun i => ((i : Int) + 1))
  if sorted ≠ expected then
    [⟨.error, "paths",
      "Path sequence broken: [" ++ joinInts sorted ++ "] vs expected [" ++ joinInts expected ++ "]",
      none⟩]
  else []

/-- Check 2 of `validateConfig`, per page: template reference and name. -/
def templateIssues (templates : List (String × ComponentNode))
    (pageId : String) (page : PageConfig) : List ValidationError :=
  (if page.template = "" then [⟨.error, "template", "Missing template", some pageId⟩]
   else if (objGet templates page.template).isNone then
     [⟨.error, "template", "Template \"" ++ page.template ++ "\" not found in templates", some pageId⟩]
   else [])
  ++ (if page.name = "" then [⟨.warning, "name", "Missing page name", some pageId⟩] else [])

/-- Message of the dangling `route.to` error of check 3. -/
def routeErrMsg (eventName target : String) : String :=
  "Event \"" ++ eventName ++ "\" routes to non-existent path: \"" ++ target ++ "\""

/-- Message of the dangling condition-target error of check 3 (`idx` is
already the 1-based position printed by the source). -/
def condTargetErrMsg (eventName : String) (idx : Nat) (target : String) : String :=
  "Event \"" ++ eventName ++ "\" condition #" ++ toString idx ++ " routes to non-existent path: \"" ++ target ++ "\""

/-- Message of the missing condition-field warning of check 3. -/
def condFieldWarnMsg (eventName : String) (idx : Nat) : String :=
  "Event \"" ++ eventName ++ "\" condition #" ++ toString idx ++ " has no field specified"

/-- Check 3 of `validateConfig`, conditional branches of one entry. -/
def conditionIssues (validPaths : List String) (eventName : String)
    (cs : List Condition) : List ValidationError :=
  cs.enum.flatMap (fun ic =>
    (if ic.2.target ≠ "" ∧ ic.2.target ∉ validPaths then
       [⟨.error, "event_routing", condTargetErrMsg eventName (ic.1 + 1) ic.2.target, none⟩]
     else [])
    ++ (if ic.2.field = "" then
       [⟨.warning, "event_routing", condFieldWarnMsg eventName (ic.1 + 1), none⟩]
     else []))

/-- Check 3 of `validateConfig`, one routing entry: dangling `route.to`
then its conditions. -/
def entryRouteIssues (validPaths : List String) (eventName : String)
    (ev : EventEntry) : List ValidationError :=
  (match ev.route with
   | some r =>
       if r.toPath ≠ "" ∧ r.toPath ∉ validPaths then
         [⟨.error, "event_routing", routeErrMsg eventName r.toPath, none⟩]
       else []
   | none => [])
  ++ (match ev.route with
   | some r =>
       match r.conditions with
       | some cs => conditionIssues validPaths eventName cs
       | none => []
   | none => [])

/-- Check 3 of `validateConfig` over the whole routing table. -/
def routingIssues (pages : List (String × PageConfig))
    (routing : List (String × EventEntry)) : List ValidationError :=
  let validPaths := pages.map (fun kp => kp.2.path)
  routing.flatMap (fun p => entryRouteIssues validPaths p.1 p.2)

/-- Check 4 of `validateConfig`, per page: `_on_*` string values must
name an existing routing entry. -/
def eventRefIssues (routing : List (String × EventEntry))
    (pageId : String) (page : PageConfig) : List ValidationError :=
  page.template_data.flatMap (fun kv =>
    if kv.1.startsWith "_on_" then
      match kv.2 with
      | .str s =>
          if s ≠ "" ∧ (objGet routing s).isNone then
            [⟨.warning, kv.1, "References event \"" ++ s ++ "\" not found in event_routing", some pageId⟩]
          else []
      | _ => []
    else [])

/-- Truthiness of an optional dictionary value. -/
def jOptTruthy (v : Option JVal) : Bool :=
  match v with
  | some x => x.truthy
  | none => false

/-- Check 5 of `validateConfig`, per page: some title or HTML content. -/
def contentIssues (pageId : String) (page : PageConfig) : List ValidationError :=
  if ¬ jOptTruthy (objGet page.template_data "_title_text")
     ∧ ¬ jOptTruthy (objGet page.template_data "_html")
     ∧ ¬ jOptTruthy (objGet page.template_data "_html_title") then
    [⟨.warning, "_title_text", "No title or HTML content", some pageId⟩]
  else []

/-- Truthiness of an optional string property. -/
def strOptTruthy (v : Option String) : Bool :=
  match v with
  | some s => s ≠ ""
  | none => false

/-- Check 6 of `validateConfig`: minimal theme completeness. -/
def themeIssues (theme : ThemeConfig) : List ValidationError :=
  (if ¬ strOptTruthy (objGet theme.colors "primary") then
     [⟨.warning, "theme.colors.primary", "Missing primary color", none⟩]
   else [])
  ++ (if ¬ strOptTruthy (objGet theme.colors "background") then
     [⟨.warning, "theme.colors.background", "Missing background color", none⟩]
   else [])
  ++ (if theme.fonts.length = 0 then
     [⟨.warning, "theme.fonts", "No fonts defined", none⟩]
   else [])

/-- Check 7 of `validateConfig`: stale `__template_preview__` page. -/
def previewIssues (pages : List (String × PageConfig)) : List ValidationError :=
  if (objGet pages "__template_preview__").isSome then
    [⟨.warning, "pages", "Stale template preview page found - will be removed on export", none⟩]
  else []

/-- `validateConfig` of the funnel provider: the seven checks, issues
accumulated in source order; pure and total. -/
def validateConfig (cfg : FunnelConfig) : List ValidationError :=
  (cfg.pages.flatMap (fun kp => pagePathIssues kp.1 kp.2))
  ++ pathSequenceIssues cfg.pages
  ++ (cfg.pages.flatMap (fun kp => templateIssues cfg.templates kp.1 kp.2))
  ++ routingIssues cfg.pages cfg.event_routing
  ++ (cfg.pages.flatMap (fun kp => eventRefIssues cfg.event_routing kp.1 kp.2))
  ++ (cfg.pages.flatMap (fun kp => contentIssues kp.1 kp.2))
  ++ themeIssues cfg.theme
  ++ previewIssues cfg.pages

/-- Theme section of an imported document: every sub-section may be
absent. -/
structure ImportTheme where
  colors : Option (List (String × String))
  fonts : Option (List (String × String))
  spacing : Option (List (String × String))
  border_radius : Option (List (String × String))
  width : Option (List (String × String))
  border : Option (List (String × String))
  deriving DecidableEq

/-- A successfully parsed imported document before the structural checks
of `loadConfig`: required sections may still be absent. -/
structure ImportDoc where
  pages : Option (List (String × PageConfig))
  theme : Option ImportTheme
  templates : Option (List (String × ComponentNode))
  layout : Option LayoutConfig
  event_routing : List (String × EventEntry)
  deriving DecidableEq

/-- The default layout `loadConfig` backfills when `layout` is absent. -/
def defaultLayout : LayoutConfig :=
  ⟨⟨"header", []⟩, ⟨"footer", []⟩⟩

/-- Backfill of the theme sub-sections (`if (!json.theme.colors)
json.theme.colors = {}` and the five analogous lines). -/
def backfillTheme (t : ImportTheme) : ThemeConfig :=
  ⟨t.colors.getD [], t.fonts.getD [], t.spacing.getD [], t.border_radius.getD [],
   t.width.getD [], t.border.getD []⟩

/-- `loadConfig` of the funnel provider on an already-read file: `none`
input embeds a JSON parse failure.  Returns the resulting document (the
current one when the import is rejected) and the error notification, if
any; the success toast carries no rejection and is embedded as `none`. -/
def loadConfig (doc : Option ImportDoc) (current : FunnelConfig) : FunnelConfig × Option String :=
  match doc with
  | none => (current, some "Error parsing JSON file. Check the file format.")
  | some d =>
    match d.pages with
    | none => (current, some "Invalid config: missing 'pages' object.")
    | some ps =>
      match d.theme with
      | none => (current, some "Invalid config: missing 'theme' object.")
      | some th =>
        match d.templates with
        | none => (current, some "Invalid config: missing 'templates' object.")
        | some ts =>
          ({ pages := ps, templates := ts, event_routing := d.event_routing,
             theme := backfillTheme th, layout := d.layout.getD defaultLayout }, none)

/-- The key set of `COMPONENT_REGISTRY` in `TemplateRenderers.tsx`. -/
def COMPONENT_REGISTRY_KEYS : List String :=
  ["Page", "Box", "Gap", "Divider", "Text", "Title", "Subtitle", "RichText",
   "ImageBox", "Button", "ItemPicker", "FocusAreas", "UnitToggle", "LengthInput",
   "WeightInput", "NumericInput", "DatePicker", "TextInput", "NotificationCard",
   "LinksBox", "PageProgressBar", "AnimatedChart", "Checkout", "Countdown",
   "Carousel", "BmiChart", "BmiReport", "BmiNotification", "GoalNotification",
   "WeightLossChart"]

/-- `resolveProp` of `TemplateRenderers.tsx`: a string starting with `_`
is looked up in `template_data` (`null` when absent); anything else is
returned unchanged. -/
def resolveProp (v : JVal) (data : List (String × JVal)) : JVal :=
  match v with
  | .str s =>
      if s.startsWith "_" then
        match objGet data s with
        | some x => x
        | none => .null
      else v
  | _ => v

/-- `resolveProps` of `TemplateRenderers.tsx`: `resolveProp` per key. -/
def resolveProps (props : List (String × JVal)) (data : List (String × JVal)) :
    List (String × JVal) :=
  props.map (fun kv => (kv.1, resolveProp kv.2 data))

/-- JavaScript `a || b` on the two optional kind-name fields, followed by
the walker's own falsiness test: `none` exactly when
`node.component || node.type` is falsy. -/
def jsStrOr (a b : Option String) : Option String :=
  match a with
  | some s =>
      if s ≠ "" then some s
      else match b with
        | some t => if t ≠ "" then some t else none
        | none => none
  | none =>
      match b with
      | some t => if t ≠ "" then some t else none
      | none => none

/-- The kind name the walker dispatches on:
`const componentName = node.component || node.type`. -/
def componentNameOf : ComponentNode → Option String
  | .mk typeName component _ _ => jsStrOr component typeName

mutual
/-- Output of the recursive walker, one constructor per exit of the
source: `null` for a missing kind name, the red "Unknown:" placeholder
for an unregistered kind, and an instantiated registry component with
its resolved props and children otherwise. -/
inductive Rendered : Type where
  | nullFrag
  | unknown (name : String)
  | comp (name : String) (props : List (String × JVal)) (children : RenderedChildren)
  deriving DecidableEq

/-- Children handed to a registry component: nothing, the raw resolved
data of a string reference, or the recursively rendered child nodes. -/
inductive RenderedChildren : Type where
  | absent
  | raw (v : JVal)
  | frags (l : RenderedList)
  deriving DecidableEq

/-- A list of rendered fragments. -/
inductive RenderedList : Type where
  | nil
  | cons (hd : Rendered) (tl : RenderedList)
  deriving DecidableEq
end

mutual
/-- `RecursiveRenderer` of `TemplateRenderers.tsx`, with the registry's
key set as a parameter: dispatch on the kind name, resolve props, render
child nodes recursively, and pass a string child reference through
`resolveProp` as raw data. -/
def RecursiveRenderer (registry : List String) (data : List (String × JVal)) :
    ComponentNode → Rendered
  | .mk typeName component props children =>
    match jsStrOr component typeName with
    | none => .nullFrag
    | some componentName =>
      if componentName ∉ registry then .unknown componentName
      else
        .comp componentName (resolveProps props data)
          (match children with
           | .absent => .absent
           | .ref s => .raw (resolveProp (.str s) data)
           | .nodes l => .frags (renderNodeList registry data l))
  termination_by structural n => n

/-- The walker mapped over a child node list. -/
def renderNodeList (registry : List String) (data : List (String × JVal)) :
    NodeList → RenderedList
  | .nil => .nil
  | .cons h t => .cons (RecursiveRenderer registry data h) (renderNodeList registry data t)
  termination_by structural l => l
end

/-- Length of a child node list. -/
def NodeList.length : NodeList → Nat
  | .nil => 0
  | .cons _ t => 1 + t.length

/-- Length of a rendered fragment list. -/
def RenderedList.length : RenderedList → Nat
  | .nil => 0
  | .cons _ t => 1 + t.length

theorem objGet_objSet_self {α : Type} (m : List (String × α)) (k : String) (v : α) :
    objGet (objSet m k v) k = some v := by
  induction m with
  | nil => simp [objSet, objGet]
  | cons a t ih =>
    by_cases h : a.1 = k
    · simp [objSet, objGet, List.any_cons, h, List.find?_cons]
    · cases ht : t.any (fun p => p.1 = k) with
      | true =>
        simp only [objSet, ht, List.any_cons, h] at ih ⊢
        simp only [decide_eq_true_eq] at *
        simp [objGet, List.find?_cons, h] at ih ⊢
        simpa [h, ht] using ih
      | false =>
        simp only [objSet, ht, List.any_cons, h] at ih ⊢
        simp only [decide_eq_true_eq] at *
        simp [objGet, List.find?_cons, h] at ih ⊢
        simpa [h, ht] using ih

theorem objGet_objSet_ne {α : Type} (m : List (String × α)) (k k' : String) (v : α)
    (hne : k' ≠ k) : objGet (objSet m k v) k' = objGet m k' := by
  unfold objSet
  by_cases hany : m.any (fun p => p.1 = k)
  · simp only [if_pos hany]
    unfold objGet
    rw [List.find?_map]
    have hpred : ((fun p => decide (p.1 = k')) ∘ (fun p : String × α => if p.1 = k then (k, v) else p))
        = (fun p : String × α => decide (p.1 = k')) := by
      funext p
      by_cases hp : p.1 = k
      · simp [hp, Ne.symm hne]
      · simp [hp]
    rw [hpred]
    cases hf : m.find? (fun p => decide (p.1 = k')) with
    | none => simp
    | some q =>
      have hq : q.1 = k' := by simpa using List.find?_some hf
      have hqk : ¬ q.1 = k := by rw [hq]; exact hne
      simp [hqk]
  · simp only [if_neg hany]
    unfold objGet
    rw [List.find?_append]
    cases hf : m.find? (fun p => decide (p.1 = k')) with
    | none => simp [List.find?, Ne.symm hne]
    | some q => simp

theorem find?_keyed_eq {α : Type} (l : List (String × α)) (k : String) (v : α)
    (hmem : (k, v) ∈ l) (hnodup : (l.map Prod.fst).Nodup) :
    l.find? (fun p => p.1 = k) = some (k, v) := by
  induction l with
  | nil => simp at hmem
  | cons a t ih =>
    have hnd : a.1 ∉ t.map Prod.fst ∧ (t.map Prod.fst).Nodup := by
      rw [List.map_cons] at hnodup
      exact List.nodup_cons.mp hnodup
    rcases List.mem_cons.mp hmem with heq | hmem'
    · subst heq
      simp [List.find?_cons]
    · have hk : k ∈ t.map Prod.fst := by
        simpa using List.mem_map_of_mem Prod.fst hmem'
      have ha : ¬ a.1 = k := by
        intro hak
        exact hnd.1 (hak ▸ hk)
      rw [List.find?_cons]
      simp only [ha, decide_False, decide_eq_true_eq]
      exact ih hmem' hnd.2

theorem objGet_eq_of_mem_nodup {α : Type} (l : List (String × α)) (k : String) (v : α)
    (hmem : (k, v) ∈ l) (hnodup : (l.map Prod.fst).Nodup) :
    objGet l k = some v := by
  unfold objGet
  rw [find?_keyed_eq l k v hmem hnodup]
  rfl

theorem objGet_map_keyed {α β : Type} (g : String → α → β) (l : List (String × α)) (k : String) :
    objGet (l.map (fun p => (p.1, g p.1 p.2))) k
      = (l.find? (fun p => p.1 = k)).map (fun p => g p.1 p.2) := by
  induction l with
  | nil => simp [objGet]
  | cons a t ih =>
    by_cases h : a.1 = k
    · simp [objGet, List.find?_cons, h]
    · simp only [List.map_cons]
      unfold objGet at ih ⊢
      rw [List.find?_cons, List.find?_cons]
      simp only [h, decide_eq_true_eq, if_neg, decide_eq_false_iff_not, not_false_eq_true]
      simpa [h] using ih

theorem reindexEventRouting_routing_eq (o n : List (String × PageConfig))
    (r : List (String × EventEntry)) :
    (reindexEventRouting o n r).routing
      = r.map (fun p =>
          (p.1, (migrateEntry o n (buildEventOwnerMap o r) (buildPathMap o n) p.1 p.2).1)) := by
  unfold reindexEventRouting
  by_cases h : buildPathMap o n = [] ∧ r = []
  · simp [h, h.2]
  · simp [h]

theorem objGet_map_pair {α β : Type} (g : String × α → β) (l : List (String × α)) (k : String)
    (v : α) (hmem : (k, v) ∈ l) (hnodup : (l.map Prod.fst).Nodup) :
    objGet (l.map (fun p => (p.1, g p))) k = some (g (k, v)) := by
  unfold objGet
  rw [List.find?_map]
  have hpred : ((fun p : String × β => decide (p.1 = k)) ∘ (fun p : String × α => (p.1, g p)))
      = (fun p : String × α => decide (p.1 = k)) := by
    funext p
    rfl
  rw [hpred, find?_keyed_eq l k v hmem hnodup]
  rfl

/-- A page record with the fields the examples need (no meta, no
tracking events, default header/footer). -/
def mkPage (name path template : String) (td : List (String × JVal)) : PageConfig :=
  ⟨name, path, template, td, none, [], none, none⟩

/-- C1: sequential rule of the Route Migrator.  For a routing entry whose
owner (via the event-owner map over the pre-edit pages) had old path `b`
and whose `route.to` parses to `b + 1`, the migrated entry's `route.to`
is the owner's new path plus one, rendered as a string. -/
theorem sequential_route_preserved
    (oldPages newPages : List (String × PageConfig))
    (routing : List (String × EventEntry))
    (e : String) (ev : EventEntry) (r : Route)
    (hmem : (e, ev) ∈ routing)
    (hnodup : (routing.map Prod.fst).Nodup)
    (hroute : ev.route = some r)
    (htruthy : r.toPath ≠ "")
    (ownerKey : String)
    (howner : objGet (buildEventOwnerMap oldPages routing) e = some ownerKey)
    (opg npg : PageConfig)
    (hopg : objGet oldPages ownerKey = some opg)
    (hnpg : objGet newPages ownerKey = some npg)
    (b m : Int)
    (hob : parseIntJS opg.path = some b)
    (hto : parseIntJS r.toPath = some (b + 1))
    (hnb : parseIntJS npg.path = some m) :
    objGet (reindexEventRouting oldPages newPages routing).routing e
      = some { ev with route := some ⟨toString (m + 1),
          migrateConds (buildPathMap oldPages newPages) r.conditions⟩ } := by
  have hlook : objGet (reindexEventRouting oldPages newPages routing).routing e
      = some ((migrateEntry oldPages newPages (buildEventOwnerMap oldPages routing)
          (buildPathMap oldPages newPages) e ev).1) := by
    rw [reindexEventRouting_routing_eq]
    exact objGet_map_pair _ routing e ev hmem hnodup
  rw [hlook]
  simp [migrateEntry, hroute, htruthy, howner, hopg, hnpg, wasSequentialTest,
    hob, hto, hnb, seqNewTo]

/-- Pre-edit pages of the sequential-route example: the owner `pA` sits
at path 3 and its event routes to 4. -/
def seqOldPages : List (String × PageConfig) :=
  [("p1", mkPage "P1" "1" "t" []),
   ("p2", mkPage "P2" "2" "t" []),
   ("pA", mkPage "A" "3" "t" [("_on_click", JVal.str "e1")]),
   ("p4", mkPage "P4" "4" "t" [])]

/-- Post-edit pages of the sequential-route example: a page inserted
before `pA`, then reindexed, so `pA` moves to path 4. -/
def seqNewPages : List (String × PageConfig) :=
  reindexPages
    [("p1", mkPage "P1" "1" "t" []),
     ("p2", mkPage "P2" "2" "t" []),
     ("nw", mkPage "New" "" "t" []),
     ("pA", mkPage "A" "3" "t" [("_on_click", JVal.str "e1")]),
     ("p4", mkPage "P4" "4" "t" [])]

/-- Routing table of the sequential-route example. -/
def seqRouting : List (String × EventEntry) :=
  [("e1", ⟨some ⟨"4", none⟩, none⟩)]

/-- Witness for C1: inserting a page before the owner (path 3 → 4) moves
the sequential route from 4 to 5. -/
theorem sequential_route_preserved_witness :
    objGet (reindexEventRouting seqOldPages seqNewPages seqRouting).routing "e1"
      = some ⟨some ⟨toString ((4 : Int) + 1),
          migrateConds (buildPathMap seqOldPages seqNewPages) none⟩, none⟩ :=
  sequential_route_preserved seqOldPages seqNewPages seqRouting "e1"
    ⟨some ⟨"4", none⟩, none⟩ ⟨"4", none⟩ (by decide) (by decide) rfl (by decide)
    "pA" (by decide)
    (mkPage "A" "3" "t" [("_on_click", JVal.str "e1")])
    (mkPage "A" "4" "t" [("_on_click", JVal.str "e1")])
    (by decide) (by decide) 3 4 (by decide) (by decide) (by decide)

/-- C2: custom rule of the Route Migrator.  For a routing entry whose
`route.to` fails the sequential test against its owner's old path, a path
map hit rewrites `route.to` to the mapped new path, and a miss (target
page deleted) leaves `route.to` unchanged rather than dropping it. -/
theorem custom_route_preserved
    (oldPages newPages : List (String × PageConfig))
    (routing : List (String × EventEntry))
    (e : String) (ev : EventEntry) (r : Route)
    (hmem : (e, ev) ∈ routing)
    (hnodup : (routing.map Prod.fst).Nodup)
    (hroute : ev.route = some r)
    (htruthy : r.toPath ≠ "")
    (hnotseq : wasSequentialTest
        ((objGet (buildEventOwnerMap oldPages routing) e).bind
          (fun k => (objGet oldPages k).map (fun p => p.path))) r.toPath = false) :
    (∀ t, objGet (buildPathMap oldPages newPages) r.toPath = some t → t ≠ "" →
       objGet (reindexEventRouting oldPages newPages routing).routing e
         = some { ev with route := some ⟨t,
             migrateConds (buildPathMap oldPages newPages) r.conditions⟩ })
    ∧ (objGet (buildPathMap oldPages newPages) r.toPath = none →
       objGet (reindexEventRouting oldPages newPages routing).routing e
         = some { ev with route := some ⟨r.toPath,
             migrateConds (buildPathMap oldPages newPages) r.conditions⟩ }) := by
  have hlook : objGet (reindexEventRouting oldPages newPages routing).routing e
      = some ((migrateEntry oldPages newPages (buildEventOwnerMap oldPages routing)
          (buildPathMap oldPages newPages) e ev).1) := by
    rw [reindexEventRouting_routing_eq]
    exact objGet_map_pair _ routing e ev hmem hnodup
  constructor
  · intro t hmap ht
    rw [hlook]
    simp [migrateEntry, hroute, htruthy, hnotseq, hmap, ht]
  · intro hmap
    rw [hlook]
    simp [migrateEntry, hroute, htruthy, hnotseq, hmap]

/-- Pre-edit pages of the custom-route example: `pA` (path 2) owns an
event jumping to `pC` at path 5; `pB` (path 1) is about to be deleted. -/
def custOldPages : List (String × PageConfig) :=
  [("pB", mkPage "B" "1" "t" []),
   ("pA", mkPage "A" "2" "t" [("_on_click", JVal.str "e2")]),
   ("px", mkPage "X" "3" "t" []),
   ("py", mkPage "Y" "4" "t" []),
   ("pC", mkPage "C" "5" "t" [])]

/-- Post-edit pages of the custom-route example: `pB` deleted, rest
reindexed, so `pC` moves to path 4. -/
def custNewPages : List (String × PageConfig) :=
  reindexPages (custOldPages.filter (fun p => p.1 ≠ "pB"))

/-- Routing table of the custom-route example. -/
def custRouting : List (String × EventEntry) :=
  [("e2", ⟨some ⟨"5", none⟩, none⟩)]

/-- Witness for C2: after deleting page `pB`, the custom jump to `pC`
follows `pC` from path 5 to its new path 4. -/
theorem custom_route_preserved_witness :
    objGet (reindexEventRouting custOldPages custNewPages custRouting).routing "e2"
      = some ⟨some ⟨"4",
          migrateConds (buildPathMap custOldPages custNewPages) none⟩, none⟩ :=
  (custom_route_preserved custOldPages custNewPages custRouting "e2"
    ⟨some ⟨"5", none⟩, none⟩ ⟨"5", none⟩ (by decide) (by decide) rfl (by decide)
    (by decide)).1 "4" (by decide) (by decide)

theorem migrateEntry_route_structure
    (o n : List (String × PageConfig)) (om pm : List (String × String))
    (e : String) (ev : EventEntry) (r : Route)
    (hroute : ev.route = some r) (h : r.toPath ≠ "") :
    ∃ to2, (migrateEntry o n om pm e ev).1
      = { ev with route := some ⟨to2, migrateConds pm r.conditions⟩ } := by
  simp only [migrateEntry, hroute, h, if_false, ite_false, ite_eq_right_iff]
  exact ⟨_, rfl⟩

/-- Routing table of the skipped-conditions example: the entry has a
falsy `route.to` but a conditional branch targeting old path 2. -/
def skipRouting : List (String × EventEntry) :=
  [("e3", ⟨some ⟨"", some [⟨"f", "eq", JVal.null, "2"⟩]⟩, none⟩)]

/-- Counterexample to C3 as stated: after deleting `pB`, the path map
does carry old path 2 to new path 1, yet the entry's condition target is
left at "2" because the entry has no truthy `route.to` — the migrator's
`continue` skips the whole entry, conditions included. -/
theorem condition_skip_counterexample :
    objGet (buildPathMap custOldPages custNewPages) "2" = some "1"
    ∧ objGet (reindexEventRouting custOldPages custNewPages skipRouting).routing "e3"
        = some ⟨some ⟨"", some [⟨"f", "eq", JVal.null, "2"⟩]⟩, none⟩ := by
  decide

/-- C3 (amended): for routing entries that have a truthy `route.to`,
every condition target is rewritten through the path map alone — mapped
when a mapping exists, kept otherwise — and never through the sequential
rule. -/
theorem condition_targets_identity
    (oldPages newPages : List (String × PageConfig))
    (routing : List (String × EventEntry))
    (e : String) (ev : EventEntry) (r : Route) (cs : List Condition)
    (hmem : (e, ev) ∈ routing)
    (hnodup : (routing.map Prod.fst).Nodup)
    (hroute : ev.route = some r)
    (htruthy : r.toPath ≠ "")
    (hconds : r.conditions = some cs) :
    (∃ to2, objGet (reindexEventRouting oldPages newPages routing).routing e
        = some { ev with route := some ⟨to2,
            some (cs.map (migrateCondition (buildPathMap oldPages newPages)))⟩ })
    ∧ (∀ c ∈ cs, ∀ t, c.target ≠ "" →
        objGet (buildPathMap oldPages newPages) c.target = some t → t ≠ "" →
        (migrateCondition (buildPathMap oldPages newPages) c).target = t)
    ∧ (∀ c : Condition, (migrateCondition (buildPathMap oldPages newPages) c).target = c.target
        ∨ objGet (buildPathMap oldPages newPages) c.target
            = some ((migrateCondition (buildPathMap oldPages newPages) c).target)) := by
  have hlook : objGet (reindexEventRouting oldPages newPages routing).routing e
      = some ((migrateEntry oldPages newPages (buildEventOwnerMap oldPages routing)
          (buildPathMap oldPages newPages) e ev).1) := by
    rw [reindexEventRouting_routing_eq]
    exact objGet_map_pair _ routing e ev hmem hnodup
  refine ⟨?_, ?_, ?_⟩
  · obtain ⟨to2, hstruct⟩ := migrateEntry_route_structure oldPages newPages
      (buildEventOwnerMap oldPages routing) (buildPathMap oldPages newPages) e ev r hroute htruthy
    refine ⟨to2, ?_⟩
    rw [hlook, hstruct, hconds]
    rfl
  · intro c _ t hct hmap ht
    simp [migrateCondition, hct, hmap, ht]
  · intro c
    by_cases hct : c.target = ""
    · left
      simp [migrateCondition, hct]
    · cases hmap : objGet (buildPathMap oldPages newPages) c.target with
      | none => left; simp [migrateCondition, hct, hmap]
      | some t =>
        by_cases ht : t = ""
        · left
          simp [migrateCondition, hct, hmap, ht]
        · right
          simp [migrateCondition, hct, hmap, ht]

/-- Witness for the amended C3: with a truthy `route.to` on the same
entry, the condition target 2 is rewritten to the mapped new path 1. -/
theorem condition_targets_identity_witness :
    (∃ to2, objGet (reindexEventRouting custOldPages custNewPages
        [("e4", ⟨some ⟨"5", some [⟨"f", "eq", JVal.null, "2"⟩]⟩, none⟩)]).routing "e4"
      = some ⟨some ⟨to2, some ([⟨"f", "eq", JVal.null, "2"⟩].map
          (migrateCondition (buildPathMap custOldPages custNewPages)))⟩, none⟩)
    ∧ (∀ c ∈ [(⟨"f", "eq", JVal.null, "2"⟩ : Condition)], ∀ t, c.target ≠ "" →
        objGet (buildPathMap custOldPages custNewPages) c.target = some t → t ≠ "" →
        (migrateCondition (buildPathMap custOldPages custNewPages) c).target = t)
    ∧ (∀ c : Condition, (migrateCondition (buildPathMap custOldPages custNewPages) c).target = c.target
        ∨ objGet (buildPathMap custOldPages custNewPages) c.target
            = some ((migrateCondition (buildPathMap custOldPages custNewPages) c).target)) := by
  refine condition_targets_identity custOldPages custNewPages
    [("e4", ⟨some ⟨"5", some [⟨"f", "eq", JVal.null, "2"⟩]⟩, none⟩)] "e4"
    ⟨some ⟨"5", some [⟨"f", "eq", JVal.null, "2"⟩]⟩, none⟩
    ⟨"5", some [⟨"f", "eq", JVal.null, "2"⟩]⟩ [⟨"f", "eq", JVal.null, "2"⟩]
    (by decide) (by decide) rfl (by decide) rfl

theorem reindexAux_map_fst (l : List (String × PageConfig)) : ∀ i : Nat,
    (reindexAux i l).map Prod.fst = l.map Prod.fst := by
  induction l with
  | nil => intro i; simp [reindexAux]
  | cons a t ih => intro i; simp [reindexAux, ih (i + 1)]

theorem reindexAux_map_path (l : List (String × PageConfig)) : ∀ i : Nat,
    (reindexAux i l).map (fun kp => kp.2.path)
      = (List.range l.length).map (fun j => toString (i + j + 1)) := by
  induction l with
  | nil => intro i; simp [reindexAux]
  | cons a t ih =>
    intro i
    rw [List.length_cons, List.range_succ_eq_map]
    simp only [reindexAux, List.map_cons, List.map_map, ih (i + 1)]
    have hfun : ((fun j => toString (i + j + 1)) ∘ Nat.succ)
        = (fun j => toString (i + 1 + j + 1)) := by
      funext j
      simp only [Function.comp_apply]
      congr 1
      omega
    rw [hfun]

/-- A page with its `path` blanked: the projection of every field the
reindexer must not touch. -/
def pageSansPath (p : PageConfig) : PageConfig := { p with path := "" }

theorem reindexAux_map_sans (l : List (String × PageConfig)) : ∀ i : Nat,
    (reindexAux i l).map (fun kp => pageSansPath kp.2)
      = l.map (fun kp => pageSansPath kp.2) := by
  induction l with
  | nil => intro i; simp [reindexAux]
  | cons a t ih =>
    intro i
    simp only [reindexAux, List.map_cons, ih (i + 1)]
    rfl

/-- C4: the path invariant.  `reindexPages` keeps the keys and every
non-path field of every page, and assigns paths that are exactly the
strings "1".."N" in collection order; in particular `addPage`'s pages
satisfy the same invariant for its post-insertion collection. -/
theorem reindex_path_invariant (pages : List (String × PageConfig)) :
    (reindexPages pages).map Prod.fst = pages.map Prod.fst
    ∧ (reindexPages pages).map (fun kp => kp.2.path)
        = (List.range pages.length).map (fun j => toString (j + 1))
    ∧ (reindexPages pages).map (fun kp => pageSansPath kp.2)
        = pages.map (fun kp => pageSansPath kp.2)
    ∧ ∀ (cfg : FunnelConfig) (pid : String) (pc : PageConfig),
        (addPage cfg pid pc).pages.map (fun kp => kp.2.path)
          = (List.range (objSet cfg.pages pid pc).length).map (fun j => toString (j + 1)) := by
  refine ⟨reindexAux_map_fst pages 0, ?_, reindexAux_map_sans pages 0, ?_⟩
  · rw [reindexPages, reindexAux_map_path pages 0]
    simp
  · intro cfg pid pc
    show (reindexPages (objSet cfg.pages pid pc)).map (fun kp => kp.2.path) = _
    rw [reindexPages, reindexAux_map_path _ 0]
    simp

theorem redo_undo (s : HistState) (h : s.past ≠ []) : redo (undo s) = s := by
  obtain ⟨c, p, f⟩ := s
  have hp : p ≠ [] := h
  have hg : p.getLast? = some (p.getLast hp) := List.getLast?_eq_getLast p hp
  simp [undo, hg, redo, List.dropLast_append_getLast hp]

theorem undo_past_length (s : HistState) (h : s.past ≠ []) :
    (undo s).past.length = s.past.length - 1 := by
  have hg := List.getLast?_eq_getLast s.past h
  simp [undo, hg]

theorem iterate_undo_past_length (k : Nat) : ∀ s : HistState, k ≤ s.past.length →
    (undo^[k] s).past.length = s.past.length - k := by
  induction k with
  | zero =>
    intro s _
    simp
  | succ n ih =>
    intro s hk
    rw [Function.iterate_succ_apply]
    have hne : s.past ≠ [] := by
      intro hh
      rw [hh] at hk
      simp at hk
    rw [ih (undo s) (by rw [undo_past_length s hne]; omega)]
    rw [undo_past_length s hne]
    omega

theorem iterate_redo_undo (k : Nat) : ∀ s : HistState, k ≤ s.past.length →
    redo^[k] (undo^[k] s) = s := by
  induction k with
  | zero =>
    intro s _
    simp
  | succ n ih =>
    intro s hk
    rw [Function.iterate_succ_apply' undo n s]
    rw [Function.iterate_succ_apply redo n (undo (undo^[n] s))]
    have hlen : (undo^[n] s).past.length = s.past.length - n :=
      iterate_undo_past_length n s (by omega)
    have hne : (undo^[n] s).past ≠ [] := by
      intro hh
      rw [hh] at hlen
      simp at hlen
      omega
    rw [redo_undo _ hne]
    exact ih s (by omega)

theorem applyMutations_past_length : ∀ (cs : List FunnelConfig) (s : HistState),
    s.past.length + cs.length ≤ MAX_HISTORY →
    (applyMutations s cs).past.length = s.past.length + cs.length := by
  intro cs
  induction cs with
  | nil =>
    intro s _
    simp [applyMutations]
  | cons c t ih =>
    intro s hk
    simp only [List.length_cons, MAX_HISTORY] at hk
    have hs : (setConfig s c).past.length = s.past.length + 1 := by
      simp only [setConfig, List.length_drop, List.length_append, List.length_cons,
        List.length_nil, MAX_HISTORY]
      omega
    show (applyMutations (setConfig s c) t).past.length = _
    rw [ih (setConfig s c) (by rw [hs]; simp only [MAX_HISTORY]; omega)]
    rw [hs]
    simp only [List.length_cons]
    omega

/-- C5: undo/redo symmetry.  `undo` and `redo` are no-ops on an empty
source stack, and after any `k ≤ MAX_HISTORY` mutations from an empty
history, `k` undos followed by `k` redos restore the state reached after
the mutations. -/
theorem undo_redo_symmetry :
    (∀ s : HistState, s.past = [] → undo s = s)
    ∧ (∀ s : HistState, s.future = [] → redo s = s)
    ∧ ∀ (c0 : FunnelConfig) (cs : List FunnelConfig), cs.length ≤ MAX_HISTORY →
        redo^[cs.length] (undo^[cs.length] (applyMutations ⟨c0, [], []⟩ cs))
          = applyMutations ⟨c0, [], []⟩ cs := by
  refine ⟨?_, ?_, ?_⟩
  · intro s h
    simp [undo, h]
  · intro s h
    simp [redo, h]
  · intro c0 cs hk
    apply iterate_redo_undo
    have hlen := applyMutations_past_length cs ⟨c0, [], []⟩ (by simpa using hk)
    simp only [List.length_nil] at hlen
    omega

/-- An empty funnel document for the history example. -/
def cfgEmpty : FunnelConfig := ⟨[], [], [], ⟨[], [], [], [], [], []⟩, defaultLayout⟩

/-- A one-page funnel document for the history example. -/
def cfgOne : FunnelConfig := { cfgEmpty with pages := [("p1", mkPage "P1" "1" "t" [])] }

/-- Witness for C5: one mutation, one undo, one redo, same state. -/
theorem undo_redo_symmetry_witness :
    redo^[1] (undo^[1] (applyMutations ⟨cfgEmpty, [], []⟩ [cfgOne]))
      = applyMutations ⟨cfgEmpty, [], []⟩ [cfgOne] :=
  undo_redo_symmetry.2.2 cfgEmpty [cfgOne] (by decide)

/-- C7: import guard.  A parse failure or a document missing `pages`,
`theme` or `templates` is rejected with its message and leaves the
current document untouched; otherwise missing theme sub-sections and a
missing layout are backfilled with empty defaults and the document is
installed. -/
theorem import_guard (current : FunnelConfig) :
    (loadConfig none current
        = (current, some "Error parsing JSON file. Check the file format."))
    ∧ (∀ d : ImportDoc, d.pages = none →
        loadConfig (some d) current = (current, some "Invalid config: missing 'pages' object."))
    ∧ (∀ (d : ImportDoc) ps, d.pages = some ps → d.theme = none →
        loadConfig (some d) current = (current, some "Invalid config: missing 'theme' object."))
    ∧ (∀ (d : ImportDoc) ps th, d.pages = some ps → d.theme = some th → d.templates = none →
        loadConfig (some d) current = (current, some "Invalid config: missing 'templates' object."))
    ∧ (∀ (d : ImportDoc) ps th ts, d.pages = some ps → d.theme = some th → d.templates = some ts →
        loadConfig (some d) current
          = ({ pages := ps, templates := ts, event_routing := d.event_routing,
               theme := backfillTheme th, layout := d.layout.getD defaultLayout }, none)) := by
  refine ⟨rfl, ?_, ?_, ?_, ?_⟩
  · intro d h1
    simp [loadConfig, h1]
  · intro d ps h1 h2
    simp [loadConfig, h1, h2]
  · intro d ps th h1 h2 h3
    simp [loadConfig, h1, h2, h3]
  · intro d ps th ts h1 h2 h3
    simp [loadConfig, h1, h2, h3]

/-- An imported document with bare theme and no layout, exercising every
backfill of `loadConfig`. -/
def importDocBare : ImportDoc :=
  ⟨some [("p1", mkPage "P1" "1" "t" [])],
   some ⟨none, none, none, none, none, none⟩, some [], none, []⟩

/-- Witness for C7: the bare document is accepted, its theme sub-sections
and layout backfilled with empty defaults. -/
theorem import_guard_witness :
    loadConfig (some importDocBare) cfgEmpty
      = ({ pages := [("p1", mkPage "P1" "1" "t" [])], templates := [],
           event_routing := [], theme := backfillTheme ⟨none, none, none, none, none, none⟩,
           layout := defaultLayout }, none) :=
  (import_guard cfgEmpty).2.2.2.2 importDocBare
    [("p1", mkPage "P1" "1" "t" [])] ⟨none, none, none, none, none, none⟩ []
    rfl rfl rfl

/-- C8: delete-page guard.  Deleting an unknown page id is a silent
no-op, deleting the only remaining page is a no-op with a warning toast,
and otherwise the page is removed with reindex and route migration
applied in the same returned document. -/
theorem deletePage_guard (cfg : FunnelConfig) (pid : String) :
    (pid ∉ cfg.pages.map Prod.fst → deletePage cfg pid = ⟨cfg, none⟩)
    ∧ (pid ∈ cfg.pages.map Prod.fst → cfg.pages.length ≤ 1 →
        deletePage cfg pid = ⟨cfg, some "Cannot delete the last page."⟩)
    ∧ (pid ∈ cfg.pages.map Prod.fst → 1 < cfg.pages.length →
        deletePage cfg pid = ⟨{ cfg with
            pages := reindexPages (cfg.pages.filter (fun p => p.1 ≠ pid)),
            event_routing := (reindexEventRouting cfg.pages
              (reindexPages (cfg.pages.filter (fun p => p.1 ≠ pid)))
              cfg.event_routing).routing }, some "Page deleted."⟩) := by
  refine ⟨?_, ?_, ?_⟩
  · intro h
    simp [deletePage, h]
  · intro h hlen
    simp [deletePage, h, hlen]
  · intro h hlen
    have h2 : ¬ cfg.pages.length ≤ 1 := by omega
    simp [deletePage, h, h2]

/-- Witness for C8: deleting the only page of the one-page document is
refused with the warning toast and the document is unchanged. -/
theorem deletePage_guard_witness :
    deletePage cfgOne "p1" = ⟨cfgOne, some "Cannot delete the last page."⟩ :=
  (deletePage_guard cfgOne "p1").2.1 (by decide) (by decide)

theorem renderNodeList_nil (registry : List String) (data : List (String × JVal)) :
    renderNodeList registry data .nil = .nil := rfl

theorem renderNodeList_cons (registry : List String) (data : List (String × JVal))
    (h : ComponentNode) (t : NodeList) :
    renderNodeList registry data (.cons h t)
      = .cons (RecursiveRenderer registry data h) (renderNodeList registry data t) := rfl

theorem renderNodeList_length (registry : List String) (data : List (String × JVal)) :
    ∀ l : NodeList, (renderNodeList registry data l).length = l.length
  | .nil => by
    simp [renderNodeList_nil, RenderedList.length, NodeList.length]
  | .cons h t => by
    have ih := renderNodeList_length registry data t
    simp [renderNodeList_cons, RenderedList.length, NodeList.length, ih]

/-- C9: rendering totality.  A node whose kind name is not registered
renders as the visible "unknown kind" placeholder, a registered node with
child nodes renders to a component output containing one rendered
fragment per child (so siblings and ancestors of a bad node keep their
output), and a node with a kind name never renders to the null output. -/
theorem render_totality (registry : List String) (data : List (String × JVal)) :
    (∀ (tn cn : Option String) (props : List (String × JVal)) (ch : NodeChildren) (nm : String),
        componentNameOf (.mk tn cn props ch) = some nm → nm ∉ registry →
        RecursiveRenderer registry data (.mk tn cn props ch) = .unknown nm)
    ∧ (∀ (tn cn : Option String) (props : List (String × JVal)) (l : NodeList) (nm : String),
        jsStrOr cn tn = some nm → nm ∈ registry →
        RecursiveRenderer registry data (.mk tn cn props (.nodes l))
          = .comp nm (resolveProps props data) (.frags (renderNodeList registry data l)))
    ∧ (∀ l : NodeList, (renderNodeList registry data l).length = l.length)
    ∧ (∀ (tn cn : Option String) (props : List (String × JVal)) (ch : NodeChildren) (nm : String),
        componentNameOf (.mk tn cn props ch) = some nm →
        RecursiveRenderer registry data (.mk tn cn props ch) ≠ .nullFrag) := by
  refine ⟨?_, ?_, renderNodeList_length registry data, ?_⟩
  · intro tn cn props ch nm hname hmem
    simp only [componentNameOf] at hname
    cases ch <;> simp [RecursiveRenderer, hname, hmem]
  · intro tn cn props l nm hname hmem
    simp [RecursiveRenderer, hname, hmem]
  · intro tn cn props ch nm hname
    simp only [componentNameOf] at hname
    by_cases hmem : nm ∈ registry
    · cases ch <;> simp [RecursiveRenderer, hname, hmem]
    · cases ch <;> simp [RecursiveRenderer, hname, hmem]

/-- Witness for C9: an unregistered kind renders as the placeholder, and
a two-node sibling list containing it still yields one fragment per
sibling. -/
theorem render_totality_witness :
    RecursiveRenderer COMPONENT_REGISTRY_KEYS [] (.mk (some "Wat") none [] .absent)
      = .unknown "Wat"
    ∧ (renderNodeList COMPONENT_REGISTRY_KEYS []
        (.cons (.mk (some "Wat") none [] .absent)
          (.cons (.mk (some "Text") none [] .absent) .nil))).length
      = (NodeList.cons (.mk (some "Wat") none [] .absent)
          (.cons (.mk (some "Text") none [] .absent) .nil)).length :=
  ⟨(render_totality COMPONENT_REGISTRY_KEYS []).1 (some "Wat") none [] .absent "Wat"
      (by decide) (by decide),
   (render_totality COMPONENT_REGISTRY_KEYS []).2.2.1
      (.cons (.mk (some "Wat") none [] .absent)
        (.cons (.mk (some "Text") none [] .absent) .nil))⟩

/-- Whether a page's `template_data` has the event name among its
values (the ownership criterion scanned by `buildEventOwnerMap`). -/
def pageRefsEvent (p : PageConfig) (e : String) : Bool :=
  p.template_data.any (fun kv => kv.2 = JVal.str e)

theorem objGet_scanPageValues (names : List String) (pk e : String)
    (he : names.contains e = true) :
    ∀ (vals : List JVal) (acc : List (String × String)),
    objGet (scanPageValues names pk vals acc) e
      = if vals.any (fun v => v = JVal.str e) then some pk else objGet acc e := by
  intro vals
  induction vals with
  | nil =>
    intro acc
    simp [scanPageValues]
  | cons v t ih =>
    intro acc
    simp only [scanPageValues]
    rw [ih]
    by_cases hv : v = JVal.str e
    · subst hv
      by_cases hta : t.any (fun v => v = JVal.str e)
      · simp [hta]
      · have hm : e ∈ names := by simpa using he
        simp [hta, hm, objGet_objSet_self]
    · have hvd : (decide (v = JVal.str e)) = false := by
        simp [hv]
      simp only [List.any_cons, hvd, Bool.false_or]
      by_cases hta : t.any (fun v => v = JVal.str e)
      · simp [hta]
      · simp only [hta, Bool.false_eq_true, if_neg, not_false_eq_true]
        cases v with
        | str s =>
          have hse : e ≠ s := by
            intro h
            exact hv (by rw [h])
          by_cases hcs : s ∈ names
          · simp [hcs, objGet_objSet_ne acc s e pk hse]
          · simp [hcs]
        | num n => rfl
        | bool b => rfl
        | null => rfl

theorem anyMap_snd (e : String) : ∀ td : List (String × JVal),
    ((td.map (fun kv => kv.2)).any (fun v => v = JVal.str e))
      = td.any (fun kv => kv.2 = JVal.str e) := by
  intro td
  induction td with
  | nil => rfl
  | cons a t ih => simp [List.any_cons, ih]

theorem objGet_buildEventOwnerMapAux (names : List String) (e : String)
    (he : names.contains e = true) :
    ∀ (pages : List (String × PageConfig)) (acc : List (String × String)),
    objGet (buildEventOwnerMapAux names pages acc) e
      = match (pages.filter (fun kp => pageRefsEvent kp.2 e)).getLast? with
        | some kp2 => some kp2.1
        | none => objGet acc e := by
  intro pages
  induction pages with
  | nil =>
    intro acc
    simp [buildEventOwnerMapAux]
  | cons kp t ih =>
    intro acc
    simp only [buildEventOwnerMapAux]
    rw [ih]
    have hscan := objGet_scanPageValues names kp.1 e he
      (kp.2.template_data.map (fun kv => kv.2)) acc
    rw [anyMap_snd e kp.2.template_data] at hscan
    rw [show ((kp.2.template_data.any fun kv => decide (kv.2 = JVal.str e)))
        = pageRefsEvent kp.2 e from rfl] at hscan
    by_cases hp : pageRefsEvent kp.2 e
    · rw [hp] at hscan
      simp only [if_true] at hscan
      simp only [List.filter_cons, hp, if_pos]
      cases hft : (t.filter (fun kp2 => pageRefsEvent kp2.2 e)) with
      | nil =>
        simp only [hft, List.getLast?_nil]
        exact hscan
      | cons b l2 =>
        rw [List.getLast?_cons_cons]
        have hg := List.getLast?_eq_getLast (b :: l2) (by simp)
        rw [hg]
    · rw [Bool.not_eq_true] at hp
      rw [hp] at hscan
      simp only [Bool.false_eq_true, if_false] at hscan
      simp only [List.filter_cons, hp, Bool.false_eq_true, if_neg, not_false_eq_true]
      cases hft : (t.filter (fun kp2 => pageRefsEvent kp2.2 e)) with
      | nil =>
        simp only [hft, List.getLast?_nil]
        exact hscan
      | cons b l2 =>
        have hg := List.getLast?_eq_getLast (b :: l2) (by simp)
        rw [hg]

/-- C10: last-writer-wins event ownership.  The owner map resolves an
event name to the key of the last page (in collection order) whose
`template_data` references it, and the migrated routing entry for that
event is exactly the per-entry migration computed from this single owner
lookup. -/
theorem event_owner_last_writer
    (pages newPages : List (String × PageConfig)) (routing : List (String × EventEntry))
    (e : String) (ev : EventEntry)
    (hmem : (e, ev) ∈ routing)
    (hnodup : (routing.map Prod.fst).Nodup) :
    objGet (buildEventOwnerMap pages routing) e
      = ((pages.filter (fun kp => pageRefsEvent kp.2 e)).getLast?).map (fun kp => kp.1)
    ∧ objGet (reindexEventRouting pages newPages routing).routing e
        = some ((migrateEntry pages newPages (buildEventOwnerMap pages routing)
            (buildPathMap pages newPages) e ev).1) := by
  constructor
  · have hee : e ∈ routing.map (fun p => p.1) := by
      simpa using List.mem_map_of_mem (fun p : String × EventEntry => p.1) hmem
    have he : (routing.map (fun p => p.1)).contains e = true :=
      List.elem_eq_true_of_mem hee
    rw [buildEventOwnerMap, objGet_buildEventOwnerMapAux (routing.map (fun p => p.1)) e he pages []]
    cases hft : (pages.filter (fun kp => pageRefsEvent kp.2 e)).getLast? with
    | some b => simp
    | none => simp [objGet]
  · rw [reindexEventRouting_routing_eq]
    exact objGet_map_pair _ routing e ev hmem hnodup

/-- Pages of the shared-ownership example: `pa` and `pb` both reference
`e1` in their data; `pb` comes later in collection order. -/
def ownPages : List (String × PageConfig) :=
  [("pa", mkPage "A" "1" "t" [("_on_click", JVal.str "e1")]),
   ("pb", mkPage "B" "2" "t" [("_on_next", JVal.str "e1")]),
   ("pc", mkPage "C" "3" "t" [])]

/-- The same pages with `pa` and `pb` swapped and reindexed. -/
def ownNewPages : List (String × PageConfig) :=
  reindexPages
    [("pb", mkPage "B" "2" "t" [("_on_next", JVal.str "e1")]),
     ("pa", mkPage "A" "1" "t" [("_on_click", JVal.str "e1")]),
     ("pc", mkPage "C" "3" "t" [])]

/-- Routing table of the shared-ownership example. -/
def ownRouting : List (String × EventEntry) :=
  [("e1", ⟨some ⟨"3", none⟩, none⟩)]

/-- Witness for C10: with two pages referencing `e1`, the owner map
resolves to the later page `pb`, and the migrated entry is the one
computed from that single owner. -/
theorem event_owner_last_writer_witness :
    objGet (buildEventOwnerMap ownPages ownRouting) "e1"
      = ((ownPages.filter (fun kp => pageRefsEvent kp.2 "e1")).getLast?).map (fun kp => kp.1)
    ∧ objGet (reindexEventRouting ownPages ownNewPages ownRouting).routing "e1"
        = some ((migrateEntry ownPages ownNewPages (buildEventOwnerMap ownPages ownRouting)
            (buildPathMap ownPages ownNewPages) "e1" ⟨some ⟨"3", none⟩, none⟩).1) :=
  event_owner_last_writer ownPages ownNewPages ownRouting "e1" ⟨some ⟨"3", none⟩, none⟩
    (by decide) (by decide)

theorem pagePathIssues_field (k : String) (p : PageConfig) (i : ValidationError)
    (hi : i ∈ pagePathIssues k p) : i.field = "path" := by
  unfold pagePathIssues at hi
  split at hi
  · simp at hi
    subst hi
    rfl
  · split at hi
    · simp at hi
      subst hi
      rfl
    · simp at hi

theorem pathSequenceIssues_field (pages : List (String × PageConfig)) (i : ValidationError)
    (hi : i ∈ pathSequenceIssues pages) : i.field = "paths" := by
  simp only [pathSequenceIssues] at hi
  split at hi
  · simp at hi
    subst hi
    rfl
  · simp at hi

theorem templateIssues_field (ts : List (String × ComponentNode)) (k : String)
    (p : PageConfig) (i : ValidationError) (hi : i ∈ templateIssues ts k p) :
    i.field = "template" ∨ i.field = "name" := by
  unfold templateIssues at hi
  rw [List.mem_append] at hi
  rcases hi with hi | hi
  · split at hi
    · simp at hi
      subst hi
      left
      rfl
    · split at hi
      · simp at hi
        subst hi
        left
        rfl
      · simp at hi
  · split at hi
    · simp at hi
      subst hi
      right
      rfl
    · simp at hi

theorem eventRefIssues_warning (rt : List (String × EventEntry)) (k : String)
    (p : PageConfig) (i : ValidationError) (hi : i ∈ eventRefIssues rt k p) :
    i.kind = .warning := by
  unfold eventRefIssues at hi
  rw [List.mem_flatMap] at hi
  obtain ⟨kv, _, hi⟩ := hi
  repeat' split at hi
  all_goals first
  | (simp at hi
     subst hi
     rfl)
  | simp at hi

theorem contentIssues_warning (k : String) (p : PageConfig) (i : ValidationError)
    (hi : i ∈ contentIssues k p) : i.kind = .warning := by
  unfold contentIssues at hi
  split at hi
  · simp at hi
    subst hi
    rfl
  · simp at hi

theorem themeIssues_warning (th : ThemeConfig) (i : ValidationError)
    (hi : i ∈ themeIssues th) : i.kind = .warning := by
  unfold themeIssues at hi
  rw [List.mem_append, List.mem_append] at hi
  rcases hi with (hi | hi) | hi <;>
    · split at hi
      · simp at hi
        subst hi
        rfl
      · simp at hi

theorem previewIssues_warning (pages : List (String × PageConfig)) (i : ValidationError)
    (hi : i ∈ previewIssues pages) : i.kind = .warning := by
  unfold previewIssues at hi
  split at hi
  · simp at hi
    subst hi
    rfl
  · simp at hi

theorem flatMap_filter_nil {α β : Type} (l : List α) (f : α → List β) (p : β → Bool)
    (h : ∀ a ∈ l, (f a).filter p = []) : (l.flatMap f).filter p = [] := by
  induction l with
  | nil => simp
  | cons a tl ih =>
    rw [List.flatMap_cons, List.filter_append]
    rw [h a (by simp), ih (fun x hx => h x (by simp [hx]))]
    rfl

theorem entryRouteIssues_filter_nil (vp : List String) (name : String) (ev' : EventEntry)
    (tgt : ValidationError)
    (hmsg : ∀ r' : Route, ev'.route = some r' → routeErrMsg name r'.toPath ≠ tgt.message)
    (hcond : ∀ (r' : Route) (cs : List Condition), ev'.route = some r' →
        r'.conditions = some cs → tgt ∉ conditionIssues vp name cs) :
    (entryRouteIssues vp name ev').filter (fun i => i = tgt) = [] := by
  apply List.filter_eq_nil_iff.mpr
  intro i hi
  simp only [entryRouteIssues, List.mem_append] at hi
  rcases hi with hi | hi
  · cases hr' : ev'.route with
    | none =>
      simp only [hr'] at hi
      simp at hi
    | some r' =>
      simp only [hr'] at hi
      split at hi
      · simp at hi
        subst hi
        simp only [decide_eq_true_eq]
        intro heq
        exact hmsg r' hr' (congrArg ValidationError.message heq)
      · simp at hi
  · cases hr' : ev'.route with
    | none =>
      simp only [hr'] at hi
      simp at hi
    | some r' =>
      simp only [hr'] at hi
      cases hcs : r'.conditions with
      | none =>
        simp only [hcs] at hi
        simp at hi
      | some cs =>
        simp only [hcs] at hi
        simp only [decide_eq_true_eq]
        intro heq
        subst heq
        exact hcond r' cs hr' hcs hi

theorem entryRouteIssues_filter_hit (vp : List String) (name : String) (ev : EventEntry)
    (r : Route) (hr : ev.route = some r) (ht : r.toPath ≠ "") (hd : r.toPath ∉ vp)
    (hcond : ∀ cs, r.conditions = some cs →
        (⟨.error, "event_routing", routeErrMsg name r.toPath, none⟩ : ValidationError)
          ∉ conditionIssues vp name cs) :
    (entryRouteIssues vp name ev).filter
        (fun i => i = ⟨.error, "event_routing", routeErrMsg name r.toPath, none⟩)
      = [⟨.error, "event_routing", routeErrMsg name r.toPath, none⟩] := by
  simp only [entryRouteIssues, hr, List.filter_append]
  rw [if_pos ⟨ht, hd⟩]
  have h2 : (match r.conditions with
      | some cs => conditionIssues vp name cs
      | none => ([] : List ValidationError)).filter
        (fun i => i = (⟨.error, "event_routing", routeErrMsg name r.toPath, none⟩ :
          ValidationError)) = [] := by
    cases hcs : r.conditions with
    | none => simp
    | some cs =>
      apply List.filter_eq_nil_iff.mpr
      intro i hi
      simp only [decide_eq_true_eq]
      intro heq
      subst heq
      exact hcond cs hcs hi
  rw [h2]
  simp

theorem filter_tgt_nil_of_field_ne (msg : String) (l : List ValidationError)
    (h : ∀ i ∈ l, i.field ≠ "event_routing") :
    l.filter (fun i => i = (⟨.error, "event_routing", msg, none⟩ : ValidationError)) = [] := by
  apply List.filter_eq_nil_iff.mpr
  intro i hi
  simp only [decide_eq_true_eq]
  intro heq
  exact h i hi (by rw [heq])

theorem filter_tgt_nil_of_warning (msg : String) (l : List ValidationError)
    (h : ∀ i ∈ l, i.kind = .warning) :
    l.filter (fun i => i = (⟨.error, "event_routing", msg, none⟩ : ValidationError)) = [] := by
  apply List.filter_eq_nil_iff.mpr
  intro i hi
  simp only [decide_eq_true_eq]
  intro heq
  have := h i hi
  rw [heq] at this
  simp at this

/-- C6: validator soundness for dangling route targets.  For a graph
whose routing entry `e` has a truthy `route.to` matching no page path,
`validateConfig` reports exactly one error-severity issue carrying that
entry's dangling-route message, and the message embeds the entry's event
name.  The two final hypotheses rule out other entries colliding on the
same message text. -/
theorem validator_dangling_route
    (cfg : FunnelConfig) (e t : String) (ev : EventEntry) (r : Route)
    (hmem : (e, ev) ∈ cfg.event_routing)
    (hnodup : (cfg.event_routing.map Prod.fst).Nodup)
    (hr : ev.route = some r)
    (hto : r.toPath = t)
    (ht : t ≠ "")
    (hdangle : t ∉ cfg.pages.map (fun kp => kp.2.path))
    (hothers : ∀ p ∈ cfg.event_routing, p.1 ≠ e → ∀ r' : Route, p.2.route = some r' →
        routeErrMsg p.1 r'.toPath ≠ routeErrMsg e t)
    (hconds : ∀ p ∈ cfg.event_routing, ∀ (r' : Route) (cs : List Condition),
        p.2.route = some r' → r'.conditions = some cs →
        (⟨.error, "event_routing", routeErrMsg e t, none⟩ : ValidationError)
          ∉ conditionIssues (cfg.pages.map (fun kp => kp.2.path)) p.1 cs) :
    ((validateConfig cfg).filter
        (fun i => i = (⟨.error, "event_routing", routeErrMsg e t, none⟩ :
          ValidationError))).length = 1
    ∧ ∃ a b : String, routeErrMsg e t = a ++ (e ++ b) := by
  subst hto
  constructor
  · unfold validateConfig
    simp only [List.filter_append, List.length_append]
    have h1 : ((cfg.pages.flatMap fun kp => pagePathIssues kp.1 kp.2).filter
        (fun i => i = (⟨.error, "event_routing", routeErrMsg e r.toPath, none⟩ :
          ValidationError))) = [] := by
      apply flatMap_filter_nil
      intro a _
      apply filter_tgt_nil_of_field_ne
      intro i hi
      rw [pagePathIssues_field a.1 a.2 i hi]
      decide
    have h2 : ((pathSequenceIssues cfg.pages).filter
        (fun i => i = (⟨.error, "event_routing", routeErrMsg e r.toPath, none⟩ :
          ValidationError))) = [] := by
      apply filter_tgt_nil_of_field_ne
      intro i hi
      rw [pathSequenceIssues_field cfg.pages i hi]
      decide
    have h3 : ((cfg.pages.flatMap fun kp => templateIssues cfg.templates kp.1 kp.2).filter
        (fun i => i = (⟨.error, "event_routing", routeErrMsg e r.toPath, none⟩ :
          ValidationError))) = [] := by
      apply flatMap_filter_nil
      intro a _
      apply filter_tgt_nil_of_field_ne
      intro i hi
      rcases templateIssues_field cfg.templates a.1 a.2 i hi with hf | hf <;>
        · rw [hf]
          decide
    have h5 : ((cfg.pages.flatMap fun kp => eventRefIssues cfg.event_routing kp.1 kp.2).filter
        (fun i => i = (⟨.error, "event_routing", routeErrMsg e r.toPath, none⟩ :
          ValidationError))) = [] := by
      apply flatMap_filter_nil
      intro a _
      exact filter_tgt_nil_of_warning _ _ (eventRefIssues_warning cfg.event_routing a.1 a.2)
    have h6 : ((cfg.pages.flatMap fun kp => contentIssues kp.1 kp.2).filter
        (fun i => i = (⟨.error, "event_routing", routeErrMsg e r.toPath, none⟩ :
          ValidationError))) = [] := by
      apply flatMap_filter_nil
      intro a _
      exact filter_tgt_nil_of_warning _ _ (contentIssues_warning a.1 a.2)
    have h7 : ((themeIssues cfg.theme).filter
        (fun i => i = (⟨.error, "event_routing", routeErrMsg e r.toPath, none⟩ :
          ValidationError))) = [] :=
      filter_tgt_nil_of_warning _ _ (themeIssues_warning cfg.theme)
    have h8 : ((previewIssues cfg.pages).filter
        (fun i => i = (⟨.error, "event_routing", routeErrMsg e r.toPath, none⟩ :
          ValidationError))) = [] :=
      filter_tgt_nil_of_warning _ _ (previewIssues_warning cfg.pages)
    have h4 : (((routingIssues cfg.pages cfg.event_routing)).filter
        (fun i => i = (⟨.error, "event_routing", routeErrMsg e r.toPath, none⟩ :
          ValidationError))).length = 1 := by
      obtain ⟨l1, l2, hsplit⟩ := List.append_of_mem hmem
      have hnd := hnodup
      rw [hsplit, List.map_append, List.map_cons] at hnd
      rw [List.nodup_append] at hnd
      have hnotin1 : e ∉ l1.map Prod.fst := by
        intro hin
        exact hnd.2.2 hin (by simp)
      have hnotin2 : e ∉ l2.map Prod.fst := (List.nodup_cons.mp hnd.2.1).1
      simp only [routingIssues]
      rw [hsplit, List.flatMap_append, List.flatMap_cons]
      simp only [List.filter_append, List.length_append]
      have hz1 : ((l1.flatMap fun p =>
          entryRouteIssues (cfg.pages.map (fun kp => kp.2.path)) p.1 p.2).filter
            (fun i => i = (⟨.error, "event_routing", routeErrMsg e r.toPath, none⟩ :
              ValidationError))) = [] := by
        apply flatMap_filter_nil
        intro p hp
        have hpmem : p ∈ cfg.event_routing := by
          rw [hsplit]
          exact List.mem_append.mpr (Or.inl hp)
        have hpne : p.1 ≠ e := by
          intro hh
          exact hnotin1 (hh ▸ List.mem_map_of_mem Prod.fst hp)
        apply entryRouteIssues_filter_nil
        · intro r' hr2
          exact hothers p hpmem hpne r' hr2
        · intro r' cs hr2 hcs
          exact hconds p hpmem r' cs hr2 hcs
      have hz2 : ((l2.flatMap fun p =>
          entryRouteIssues (cfg.pages.map (fun kp => kp.2.path)) p.1 p.2).filter
            (fun i => i = (⟨.error, "event_routing", routeErrMsg e r.toPath, none⟩ :
              ValidationError))) = [] := by
        apply flatMap_filter_nil
        intro p hp
        have hpmem : p ∈ cfg.event_routing := by
          rw [hsplit]
          exact List.mem_append.mpr (Or.inr (List.mem_cons_of_mem _ hp))
        have hpne : p.1 ≠ e := by
          intro hh
          exact hnotin2 (hh ▸ List.mem_map_of_mem Prod.fst hp)
        apply entryRouteIssues_filter_nil
        · intro r' hr2
          exact hothers p hpmem hpne r' hr2
        · intro r' cs hr2 hcs
          exact hconds p hpmem r' cs hr2 hcs
      have hcond2 : ∀ cs, r.conditions = some cs →
          (⟨.error, "event_routing", routeErrMsg e r.toPath, none⟩ : ValidationError)
            ∉ conditionIssues (cfg.pages.map (fun kp => kp.2.path)) e cs := by
        intro cs hcs
        exact hconds (e, ev) hmem r cs hr hcs
      have hhit := entryRouteIssues_filter_hit (cfg.pages.map (fun kp => kp.2.path)) e ev r
        hr ht hdangle hcond2
      rw [hz1, hz2, hhit]
      rfl
    rw [h1, h2, h3, h5, h6, h7, h8]
    rw [h4]
    rfl
  · refine ⟨"Event \"", "\" routes to non-existent path: \"" ++ (r.toPath ++ "\""), ?_⟩
    simp [routeErrMsg, String.append_assoc]

/-- A one-page document whose only routing entry targets the
non-existent path 9. -/
def valCfg : FunnelConfig :=
  ⟨[("p1", mkPage "P1" "1" "t" [("_title_text", JVal.str "hi")])],
   [("t", .mk (some "Box") none [] .absent)],
   [("e1", ⟨some ⟨"9", none⟩, none⟩)],
   ⟨[("primary", "x"), ("background", "y")], [("body", "f")], [], [], [], []⟩,
   defaultLayout⟩

/-- Witness for C6: the dangling entry `e1 -> 9` yields exactly one
error-severity issue with its dangling-route message. -/
theorem validator_dangling_route_witness :
    ((validateConfig valCfg).filter
        (fun i => i = (⟨.error, "event_routing", routeErrMsg "e1" "9", none⟩ :
          ValidationError))).length = 1
    ∧ ∃ a b : String, routeErrMsg "e1" "9" = a ++ ("e1" ++ b) :=
  validator_dangling_route valCfg "e1" "9" ⟨some ⟨"9", none⟩, none⟩ ⟨"9", none⟩
    (by decide) (by decide) rfl rfl (by decide) (by decide)
    (by
      intro p hp hne r' hr2
      simp only [valCfg, List.mem_singleton] at hp
      subst hp
      simp at hne)
    (by
      intro p hp r' cs hr2 hcs
      simp only [valCfg, List.mem_singleton] at hp
      subst hp
      simp only at hr2
      rw [show r' = (⟨"9", none⟩ : Route) by
        injection hr2 with h
        exact h.symm] at hcs
      simp at hcs)
